import Mathlib

/-!
# Verification of the catalog visual-search scripts

Shallow embedding of the two scripts of this repository:

* `scripts/visual-search.py` — loads the embeddings database, scores every
  stored page against a query embedding by cosine similarity, sorts the
  matches and returns the top-k;
* `scripts/generate-visual-embeddings.py` — rasterizes PDF catalogs, embeds
  each page, accumulates catalog records and serializes the database.

Real-valued float vectors are modelled as lists of rationals in exact
arithmetic.  A cosine score `dot a b / (‖a‖ * ‖b‖)` is represented exactly by
the pair of its numerator and the square of its denominator (`Score.val n p`
denotes the real number `n / √p`), so that the strict comparison used by the
sort is decidable.  IEEE NaN (the result numpy produces for `0.0 / 0.0` when
a vector has zero norm) is the explicit value `Score.nan`; comparisons with
it are `false` on both sides, as in IEEE arithmetic.  Python's
`list.sort(key=..., reverse=True)` is a stable descending sort and is
modelled by a stable insertion sort on the similarity key.  Exceptions are
modelled with `Except`.
-/

/-- A page record as produced by `generate-visual-embeddings.py` (lines
105-109) and consumed by `visual-search.py` (lines 81-89). -/
structure Page where
  page_number : Nat
  image_path : String
  embedding : List ℚ
deriving DecidableEq, Repr

/-- A catalog record (`generate-visual-embeddings.py` lines 79-83). -/
structure Catalog where
  name : String
  source_file : String
  pages : List Page
deriving DecidableEq, Repr

/-- The parsed top-level JSON artifact.  Every field is optional: `json.load`
imposes no schema, and a field is only consulted when the script reads it.
`visual-search.py` reads only `db['catalogs']` (line 79). -/
structure Artifact where
  version : Option String
  model : Option String
  created : Option String
  catalogs : Option (List Catalog)
deriving DecidableEq, Repr

/-- The Python exceptions the scripts can raise, plus the error type named by
the specification.  `valueError` is what `np.dot` raises on misaligned
shapes; `keyError` is what `db['catalogs']` raises on a missing key;
`runtimeError` stands for the rasterizer/encoder failures of the ingestion
pipeline.  `dimensionMismatchError` is modelled from the spec (§4.2, §7): the
specification requires this distinguished error, and no code in the
repository ever raises it. -/
inductive PyErr where
  | valueError (msg : String)
  | keyError (key : String)
  | runtimeError (msg : String)
  | dimensionMismatchError
deriving DecidableEq, Repr

/-- Exact representation of a double-precision similarity score.
`val n p` (with `0 < p` for every score the code produces) denotes the real
number `n / √p`; `nan` is IEEE NaN, the numpy result of `0.0 / 0.0`; `ninf`
is IEEE `-infinity`, the value §4.2 of the spec assigns to degenerate
vectors — the code never produces it, but it is needed to state that claim. -/
inductive Score where
  | nan
  | ninf
  | val (n : ℚ) (p : ℚ)
deriving DecidableEq, Repr

/-- `np.dot` for equal-length one-dimensional arrays. -/
def dot (a b : List ℚ) : ℚ := (List.zipWith (· * ·) a b).sum

/-- The square of `np.linalg.norm a`. -/
def normSq (a : List ℚ) : ℚ := dot a a

/-- IEEE strict `<` on scores: any comparison with NaN is false; on finite
values `val n1 p1 < val n2 p2` iff `n1 / √p1 < n2 / √p2`, decided by sign
analysis and cross-multiplied squares. -/
def Score.lt : Score → Score → Bool
  | .nan, _ => false
  | _, .nan => false
  | .ninf, .ninf => false
  | .ninf, .val _ _ => true
  | .val _ _, .ninf => false
  | .val n1 p1, .val n2 p2 =>
      if n1 < 0 then
        if 0 ≤ n2 then true
        else decide (n2 * n2 * p1 < n1 * n1 * p2)
      else
        if n2 ≤ 0 then false
        else decide (n1 * n1 * p2 < n2 * n2 * p1)

/-- `cosine_similarity` (`visual-search.py` lines 16-21) in exact arithmetic:
`np.dot` raises `ValueError` when the vectors have different lengths;
otherwise the score is `dot a b / (‖a‖ * ‖b‖)`.  When either norm is zero the
denominator is zero, the numerator `dot a b` is necessarily zero as well, and
the division `0.0 / 0.0` yields IEEE NaN. -/
def cosine_similarity (a b : List ℚ) : Except PyErr Score :=
  if a.length ≠ b.length then .error (.valueError "shapes not aligned")
  else if normSq a * normSq b = 0 then .ok .nan
  else .ok (.val (dot a b) (normSq a * normSq b))

/-- A search result entry (`visual-search.py` lines 83-89). -/
structure SearchHit where
  catalog : String
  page_number : Nat
  image_path : String
  similarity : Score
  source_file : String
deriving DecidableEq, Repr

/-- The inner loop of `visual-search.py` lines 81-89: score every page of one
catalog against the query, in storage order; the first exception aborts. -/
def scorePages (q : List ℚ) (name src : String) : List Page → Except PyErr (List SearchHit)
  | [] => .ok []
  | p :: ps =>
    match cosine_similarity q p.embedding with
    | .error e => .error e
    | .ok s =>
      match scorePages q name src ps with
      | .error e => .error e
      | .ok hs => .ok ({ catalog := name, page_number := p.page_number,
                         image_path := p.image_path, similarity := s,
                         source_file := src } :: hs)

/-- The outer loop of `visual-search.py` lines 78-89: one result per page,
catalogs in database order. -/
def collectResults (q : List ℚ) : List Catalog → Except PyErr (List SearchHit)
  | [] => .ok []
  | c :: cs =>
    match scorePages q c.name c.source_file c.pages with
    | .error e => .error e
    | .ok hs =>
      match collectResults q cs with
      | .error e => .error e
      | .ok rest => .ok (hs ++ rest)

/-- One step of a stable descending insertion: `x` moves past `y` only when
`x`'s key is strictly below `y`'s. -/
def insertDesc (x : SearchHit) : List SearchHit → List SearchHit
  | [] => [x]
  | y :: ys => if Score.lt x.similarity y.similarity then y :: insertDesc x ys
               else x :: y :: ys

/-- `results.sort(key=lambda x: x['similarity'], reverse=True)`
(`visual-search.py` line 92): a stable sort, descending on the similarity
key, ties left in list order. -/
def sortDesc : List SearchHit → List SearchHit
  | [] => []
  | x :: xs => insertDesc x (sortDesc xs)

/-- Python's slice `results[:top_k]` for an `int` bound (line 95):
a nonnegative bound keeps the first `top_k` entries, a negative bound drops
the last `|top_k|`. -/
def pyTake (k : Int) (l : List SearchHit) : List SearchHit :=
  if 0 ≤ k then l.take k.toNat else l.take (l.length - (-k).toNat)

/-- Total number of pages across all catalogs. -/
def totalPages (cats : List Catalog) : Nat := (cats.map (fun c => c.pages.length)).sum

/-- The ranking computation of `visual-search.py` lines 78-95: score all
pages, sort descending by similarity, take the top-k slice. -/
def rank (cats : List Catalog) (q : List ℚ) (top_k : Int) : Except PyErr (List SearchHit) :=
  match collectResults q cats with
  | .error e => .error e
  | .ok results => .ok (pyTake top_k (sortDesc results))

/-- `db['catalogs']` (line 79): a missing key raises `KeyError`. -/
def getCatalogs (a : Artifact) : Except PyErr (List Catalog) :=
  match a.catalogs with
  | none => .error (.keyError "catalogs")
  | some cs => .ok cs

/-- The three observable outcomes of a `visual-search.py` run: the dedicated
missing-database branch of lines 56-58 (its message tells the caller to run
the generator first), the generic `except` branch of lines 106-108, and the
success payload of lines 97-104. -/
inductive SearchOutcome where
  | notFoundError
  | error (e : PyErr)
  | success (total_pages_searched : Nat) (results : List SearchHit)
deriving DecidableEq, Repr

/-- `main` of `visual-search.py` from the database-existence check onward
(lines 56-108), with the query already embedded (the image decoding and CLIP
model are external collaborators, spec §1).  The existence check precedes any
read of the artifact; inside the `try` block every exception is caught and
reported as an error outcome. -/
def visualSearchMain (fileExists : Bool) (a : Artifact) (q : List ℚ) (top_k : Int) :
    SearchOutcome :=
  if ¬ fileExists then .notFoundError
  else
    match getCatalogs a with
    | .error e => .error e
    | .ok cats =>
      match collectResults q cats with
      | .error e => .error e
      | .ok results => .success results.length (pyTake top_k (sortDesc results))

/-- The append of `generate-visual-embeddings.py` line 120:
`all_embeddings["catalogs"].append(catalog_data)`.  There is no name check:
the new record is appended unconditionally. -/
def appendCatalog (db : List Catalog) (c : Catalog) : List Catalog := db ++ [c]

/-- Python `s.split("-", 1)`: `some (before, after)` around the first `'-'`
when one occurs, `none` otherwise. -/
def splitFirstDash : List Char → Option (List Char × List Char)
  | [] => none
  | c :: cs =>
    if c = '-' then some ([], cs)
    else
      match splitFirstDash cs with
      | none => none
      | some (l, r) => some (c :: l, r)

/-- Python `s.replace(".pdf", "")`: remove every (leftmost-first,
non-overlapping) occurrence of `".pdf"`. -/
def dropPdfAll : List Char → List Char
  | [] => []
  | '.' :: 'p' :: 'd' :: 'f' :: cs => dropPdfAll cs
  | c :: cs => c :: dropPdfAll cs

/-- Catalog-name derivation of `generate-visual-embeddings.py` line 71:
the part of the basename after the first `'-'` (the whole basename when there
is no dash), with `".pdf"` removed. -/
def catalogNameOf (pdf_name : String) : String :=
  match splitFirstDash pdf_name.toList with
  | some (_, r) => String.mk (dropPdfAll r)
  | none => String.mk (dropPdfAll pdf_name.toList)

/-- `os.path.join(OUTPUT_DIR, pdf_name.replace(".pdf", ""))` (line 76). -/
def catalogDirOf (outDir pdf_name : String) : String :=
  outDir ++ "/" ++ String.mk (dropPdfAll pdf_name.toList)

/-- The decimal digits of `n`, via an explicit fuel argument so the
definition is structurally recursive. -/
def digitsAux : Nat → Nat → List Char
  | 0, _ => []
  | _ + 1, 0 => []
  | fuel + 1, m => digitsAux fuel (m / 10) ++ [Char.ofNat (48 + m % 10)]

/-- Python `f"{n:03d}"`: decimal digits of `n`, left-padded with zeros to
width three (wider numbers print in full). -/
def pad3 (n : Nat) : String :=
  let ds := if n = 0 then ['0'] else digitsAux (n + 1) n
  String.mk (List.replicate (3 - ds.length) '0' ++ ds)

/-- `f"page_{page_num:03d}.jpg"` joined onto the catalog directory
(lines 94-95). -/
def pageImagePath (dir : String) (n : Nat) : String :=
  dir ++ "/page_" ++ pad3 n ++ ".jpg"

/-- One source document of an ingestion run.  `converted` models
`convert_from_path` (line 88), which can fail for the whole PDF; each element
models one page's `model.encode` (line 102), which can fail per page.  All of
this happens inside one `try` block. -/
structure SourceDoc where
  pdf_name : String
  converted : Except PyErr (List (Except PyErr (List ℚ)))

/-- The page loop of `generate-visual-embeddings.py` lines 92-110:
`enumerate(pages, 1)` numbers pages from 1; each page is saved under its
zero-padded path and embedded; the first exception aborts the whole loop. -/
def processPages (dir : String) : Nat → List (Except PyErr (List ℚ)) → Except PyErr (List Page)
  | _, [] => .ok []
  | n, e :: es =>
    match e with
    | .error err => .error err
    | .ok emb =>
      match processPages dir (n + 1) es with
      | .error err => .error err
      | .ok ps => .ok ({ page_number := n, image_path := pageImagePath dir n,
                         embedding := emb } :: ps)

/-- Lines 69-110 for a single PDF: derive the catalog name and directory,
convert the PDF, process its pages. -/
def buildCatalog (outDir : String) (doc : SourceDoc) : Except PyErr Catalog :=
  match doc.converted with
  | .error e => .error e
  | .ok pages =>
    match processPages (catalogDirOf outDir doc.pdf_name) 1 pages with
    | .error e => .error e
    | .ok ps => .ok { name := catalogNameOf doc.pdf_name,
                      source_file := doc.pdf_name, pages := ps }

/-- The document loop of lines 69-121: a document whose processing raises is
skipped (`except: ... continue`, lines 116-118) and the loop moves on; a
successful document's record is appended (line 120). -/
def ingest (outDir : String) (docs : List SourceDoc) : List Catalog :=
  docs.foldl
    (fun acc doc =>
      match buildCatalog outDir doc with
      | .error _ => acc
      | .ok c => appendCatalog acc c)
    []

/-- File-system operations, for the persistence trace of `save`. -/
inductive FsOp where
  | openWrite (path : String)
  | write (path : String) (data : String)
  | rename (src dst : String)
deriving DecidableEq, Repr

/-- Whether an operation is a rename. -/
def FsOp.isRename : FsOp → Bool
  | .rename _ _ => true
  | _ => false

/-- The save step of `generate-visual-embeddings.py` lines 124-126:
`open(EMBEDDINGS_FILE, 'w')` truncates the destination in place, then
`json.dump` writes the serialized database into it.  No temporary file, no
rename. -/
def saveTrace (dest serialized : String) : List FsOp :=
  [.openWrite dest, .write dest serialized]

/-- Effect of one operation on a file system (map from path to contents):
opening for write truncates, writing appends, renaming moves. -/
def runOp (fs : String → Option String) : FsOp → (String → Option String)
  | .openWrite p => fun q => if q = p then some "" else fs q
  | .write p d => fun q => if q = p then some ((fs p).getD "" ++ d) else fs q
  | .rename a b => fun q => if q = b then fs a else if q = a then none else fs q

/-- Run a trace of operations left to right. -/
def runOps (fs : String → Option String) (ops : List FsOp) : String → Option String :=
  ops.foldl runOp fs

/-! ## Arithmetic facts about the embedded vector operations -/

lemma normSq_nonneg (a : List ℚ) : 0 ≤ normSq a := by
  induction a with
  | nil => simp [normSq, dot]
  | cons x xs ih =>
    simp only [normSq, dot, List.zipWith_cons_cons, List.sum_cons] at *
    exact add_nonneg (mul_self_nonneg x) ih

/-- A score produced by the code is `val n p` with `0 < p`, or NaN. -/
def ScoreFinite (s : Score) : Prop := ∃ n p, s = Score.val n p ∧ 0 < p

/-- Squares against square roots: comparison of `a·√x` and `b·√y` for
nonnegative data is the comparison of the squared products. -/
lemma mul_sqrt_lt_mul_sqrt {a b x y : ℝ} (ha : 0 ≤ a) (hb : 0 ≤ b)
    (hx : 0 ≤ x) (hy : 0 ≤ y) :
    a * Real.sqrt x < b * Real.sqrt y ↔ a * a * x < b * b * y := by
  rw [mul_self_lt_mul_self_iff (mul_nonneg ha (Real.sqrt_nonneg x))
      (mul_nonneg hb (Real.sqrt_nonneg y))]
  have e1 : a * Real.sqrt x * (a * Real.sqrt x) = a * a * x := by
    rw [mul_mul_mul_comm, Real.mul_self_sqrt hx]
  have e2 : b * Real.sqrt y * (b * Real.sqrt y) = b * b * y := by
    rw [mul_mul_mul_comm, Real.mul_self_sqrt hy]
  rw [e1, e2]

/-- The decidable comparison `Score.lt` on finite scores agrees with the
real-number comparison of the cosine values they denote. -/
lemma score_lt_val_iff {n1 p1 n2 p2 : ℚ} (h1 : 0 < p1) (h2 : 0 < p2) :
    Score.lt (.val n1 p1) (.val n2 p2) = true ↔
      (n1 : ℝ) / Real.sqrt (p1 : ℝ) < (n2 : ℝ) / Real.sqrt (p2 : ℝ) := by
  have hp1 : (0 : ℝ) < (p1 : ℝ) := by exact_mod_cast h1
  have hp2 : (0 : ℝ) < (p2 : ℝ) := by exact_mod_cast h2
  have s1 := Real.sqrt_pos.mpr hp1
  have s2 := Real.sqrt_pos.mpr hp2
  rw [div_lt_div_iff₀ s1 s2]
  simp only [Score.lt]
  by_cases hn1 : n1 < 0
  · by_cases hn2 : 0 ≤ n2
    · simp only [if_pos hn1, if_pos hn2, true_iff]
      have l1 : (n1 : ℝ) * Real.sqrt (p2 : ℝ) < 0 :=
        mul_neg_of_neg_of_pos (by exact_mod_cast hn1) s2
      have l2 : (0 : ℝ) ≤ (n2 : ℝ) * Real.sqrt (p1 : ℝ) :=
        mul_nonneg (by exact_mod_cast hn2) s1.le
      linarith
    · simp only [if_pos hn1, if_neg hn2, decide_eq_true_eq]
      push_neg at hn2
      have c1 : (n1 : ℝ) < 0 := by exact_mod_cast hn1
      have c2 : (n2 : ℝ) < 0 := by exact_mod_cast hn2
      have key := mul_sqrt_lt_mul_sqrt (a := -(n2 : ℝ)) (b := -(n1 : ℝ))
        (x := (p1 : ℝ)) (y := (p2 : ℝ)) (by linarith) (by linarith) hp1.le hp2.le
      constructor
      · intro h
        have hR : (n2 : ℝ) * n2 * p1 < (n1 : ℝ) * n1 * p2 := by exact_mod_cast h
        have := key.mpr (by nlinarith)
        nlinarith
      · intro h
        have h' : -(n2 : ℝ) * Real.sqrt (p1 : ℝ) < -(n1 : ℝ) * Real.sqrt (p2 : ℝ) := by
          nlinarith
        have := key.mp h'
        exact_mod_cast (by nlinarith : (n2 : ℝ) * n2 * p1 < (n1 : ℝ) * n1 * p2)
  · by_cases hn2 : n2 ≤ 0
    · simp only [if_neg hn1, if_pos hn2, Bool.false_eq_true, false_iff, not_lt]
      push_neg at hn1
      have c1 : (n2 : ℝ) ≤ 0 := by exact_mod_cast hn2
      have c2 : (0 : ℝ) ≤ (n1 : ℝ) := by exact_mod_cast hn1
      nlinarith [mul_nonneg c2 s2.le, mul_nonneg (neg_nonneg.mpr c1) s1.le]
    · simp only [if_neg hn1, if_neg hn2, decide_eq_true_eq]
      push_neg at hn1 hn2
      have c1 : (0 : ℝ) ≤ (n1 : ℝ) := by exact_mod_cast hn1
      have c2 : (0 : ℝ) < (n2 : ℝ) := by exact_mod_cast hn2
      have key := mul_sqrt_lt_mul_sqrt (a := (n1 : ℝ)) (b := (n2 : ℝ))
        (x := (p2 : ℝ)) (y := (p1 : ℝ)) c1 c2.le hp2.le hp1.le
      constructor
      · intro h
        exact key.mpr (by exact_mod_cast h)
      · intro h
        exact_mod_cast key.mp h

lemma score_lt_irrefl (s : Score) : Score.lt s s = false := by
  cases s with
  | nan => rfl
  | ninf => rfl
  | val n p =>
    simp only [Score.lt]
    split_ifs with h1 h2 h3
    · linarith
    · simp
    · rfl
    · simp

lemma score_lt_asymm {a b : Score} (ha : ScoreFinite a) (hb : ScoreFinite b)
    (h : Score.lt a b = true) : Score.lt b a = false := by
  obtain ⟨n1, p1, rfl, hp1⟩ := ha
  obtain ⟨n2, p2, rfl, hp2⟩ := hb
  rw [score_lt_val_iff hp1 hp2] at h
  exact Bool.eq_false_iff.mpr (fun hba => absurd ((score_lt_val_iff hp2 hp1).mp hba)
    (not_lt.mpr h.le))

lemma score_lt_false_trans {a b c : Score} (ha : ScoreFinite a) (hb : ScoreFinite b)
    (hc : ScoreFinite c) (h1 : Score.lt a b = false) (h2 : Score.lt b c = false) :
    Score.lt a c = false := by
  obtain ⟨n1, p1, rfl, hp1⟩ := ha
  obtain ⟨n2, p2, rfl, hp2⟩ := hb
  obtain ⟨n3, p3, rfl, hp3⟩ := hc
  have g1 : ¬ ((n1 : ℝ) / Real.sqrt (p1 : ℝ) < (n2 : ℝ) / Real.sqrt (p2 : ℝ)) :=
    fun hlt => by simp [(score_lt_val_iff hp1 hp2).mpr hlt] at h1
  have g2 : ¬ ((n2 : ℝ) / Real.sqrt (p2 : ℝ) < (n3 : ℝ) / Real.sqrt (p3 : ℝ)) :=
    fun hlt => by simp [(score_lt_val_iff hp2 hp3).mpr hlt] at h2
  exact Bool.eq_false_iff.mpr (fun hac =>
    absurd ((score_lt_val_iff hp1 hp3).mp hac)
      (not_lt.mpr (le_trans (not_lt.mp g2) (not_lt.mp g1))))

/-! ## The stable descending sort -/

lemma length_insertDesc (x : SearchHit) (l : List SearchHit) :
    (insertDesc x l).length = l.length + 1 := by
  induction l with
  | nil => rfl
  | cons y ys ih =>
    simp only [insertDesc]
    split
    · simp [ih]
    · simp

lemma length_sortDesc (l : List SearchHit) : (sortDesc l).length = l.length := by
  induction l with
  | nil => rfl
  | cons x xs ih => simp [sortDesc, length_insertDesc, ih]

lemma mem_insertDesc {z x : SearchHit} {l : List SearchHit} :
    z ∈ insertDesc x l ↔ z = x ∨ z ∈ l := by
  induction l with
  | nil => simp [insertDesc]
  | cons y ys ih =>
    simp only [insertDesc]
    split
    · simp only [List.mem_cons, ih]
      tauto
    · simp only [List.mem_cons]

lemma mem_sortDesc {z : SearchHit} {l : List SearchHit} :
    z ∈ sortDesc l ↔ z ∈ l := by
  induction l with
  | nil => simp [sortDesc]
  | cons x xs ih => simp [sortDesc, mem_insertDesc, ih]

lemma pairwise_insertDesc {x : SearchHit} {l : List SearchHit}
    (hx : ScoreFinite x.similarity) (hl : ∀ y ∈ l, ScoreFinite y.similarity)
    (hp : l.Pairwise (fun a b => Score.lt a.similarity b.similarity = false)) :
    (insertDesc x l).Pairwise (fun a b => Score.lt a.similarity b.similarity = false) := by
  induction l with
  | nil => simp [insertDesc]
  | cons y ys ih =>
    rw [List.pairwise_cons] at hp
    obtain ⟨hy, hys⟩ := hp
    have hfy : ScoreFinite y.similarity := hl y (by simp)
    simp only [insertDesc]
    split
    · next hlt =>
      rw [List.pairwise_cons]
      refine ⟨fun z hz => ?_, ih (fun z hz => hl z (by simp [hz])) hys⟩
      rcases mem_insertDesc.mp hz with rfl | hz'
      · exact score_lt_asymm hx hfy hlt
      · exact hy z hz'
    · next hlt =>
      rw [List.pairwise_cons]
      refine ⟨fun z hz => ?_, by rw [List.pairwise_cons]; exact ⟨hy, hys⟩⟩
      rcases List.mem_cons.mp hz with rfl | hz'
      · exact Bool.eq_false_iff.mpr hlt
      · exact score_lt_false_trans hx hfy (hl z (by simp [hz']))
          (Bool.eq_false_iff.mpr hlt) (hy z hz')

lemma pairwise_sortDesc {l : List SearchHit}
    (hl : ∀ y ∈ l, ScoreFinite y.similarity) :
    (sortDesc l).Pairwise (fun a b => Score.lt a.similarity b.similarity = false) := by
  induction l with
  | nil => simp [sortDesc]
  | cons x xs ih =>
    exact pairwise_insertDesc (hl x (by simp))
      (fun y hy => hl y (by simp [mem_sortDesc.mp hy]))
      (ih (fun y hy => hl y (by simp [hy])))

lemma filter_insertDesc_eq {x : SearchHit} {s : Score} (l : List SearchHit)
    (hxs : x.similarity = s) :
    (insertDesc x l).filter (fun m => m.similarity == s) =
      x :: l.filter (fun m => m.similarity == s) := by
  induction l with
  | nil => simp [insertDesc, List.filter_cons, hxs]
  | cons y ys ih =>
    simp only [insertDesc]
    split
    · next hlt =>
      have hys : (y.similarity == s) = false := by
        rw [beq_eq_false_iff_ne]
        intro hy
        rw [hxs, hy, score_lt_irrefl] at hlt
        exact Bool.false_ne_true hlt
      simp [List.filter_cons, hys, ih]
    · simp [List.filter_cons, hxs]

lemma filter_insertDesc_ne {x : SearchHit} {s : Score} (l : List SearchHit)
    (hxs : x.similarity ≠ s) :
    (insertDesc x l).filter (fun m => m.similarity == s) =
      l.filter (fun m => m.similarity == s) := by
  induction l with
  | nil => simp [insertDesc, List.filter_cons, hxs]
  | cons y ys ih =>
    simp only [insertDesc]
    split
    · simp [List.filter_cons, ih]
    · simp [List.filter_cons, hxs]

lemma filter_sortDesc (l : List SearchHit) (s : Score) :
    (sortDesc l).filter (fun m => m.similarity == s) =
      l.filter (fun m => m.similarity == s) := by
  induction l with
  | nil => rfl
  | cons x xs ih =>
    by_cases hxs : x.similarity = s
    · rw [sortDesc, filter_insertDesc_eq _ hxs, ih,
        List.filter_cons_of_pos (by simp [hxs])]
    · rw [sortDesc, filter_insertDesc_ne _ hxs, ih,
        List.filter_cons_of_neg (by simp [hxs])]

/-! ## Scoring and ranking lemmas -/

lemma cosine_ok_of_len {q e : List ℚ} (h : e.length = q.length) :
    ∃ s, cosine_similarity q e = .ok s := by
  unfold cosine_similarity
  rw [if_neg (by omega)]
  by_cases h0 : normSq q * normSq e = 0
  · exact ⟨.nan, by rw [if_pos h0]⟩
  · exact ⟨_, by rw [if_neg h0]⟩

lemma cosine_val_of_nonzero {q e : List ℚ} (h : e.length = q.length)
    (hq : normSq q ≠ 0) (he : normSq e ≠ 0) :
    cosine_similarity q e = .ok (.val (dot q e) (normSq q * normSq e)) ∧
      0 < normSq q * normSq e := by
  have hpos : 0 < normSq q * normSq e :=
    mul_pos (lt_of_le_of_ne (normSq_nonneg q) (Ne.symm hq))
      (lt_of_le_of_ne (normSq_nonneg e) (Ne.symm he))
  refine ⟨?_, hpos⟩
  unfold cosine_similarity
  rw [if_neg (by omega), if_neg (ne_of_gt hpos)]

lemma scorePages_ok {q : List ℚ} (name src : String) (ps : List Page)
    (hdim : ∀ p ∈ ps, p.embedding.length = q.length) :
    ∃ hs, scorePages q name src ps = .ok hs ∧ hs.length = ps.length ∧
      ∀ h ∈ hs, ∃ p ∈ ps, cosine_similarity q p.embedding = .ok h.similarity := by
  induction ps with
  | nil => exact ⟨[], rfl, rfl, by simp⟩
  | cons p ps ih =>
    obtain ⟨s, hseq⟩ := cosine_ok_of_len (hdim p (by simp))
    obtain ⟨hs, h1, h2, h3⟩ := ih (fun p' hp' => hdim p' (by simp [hp']))
    refine ⟨{ catalog := name, page_number := p.page_number, image_path := p.image_path,
              similarity := s, source_file := src } :: hs, ?_, ?_, ?_⟩
    · simp only [scorePages, hseq, h1]
    · simp [h2]
    · intro h hh
      rcases List.mem_cons.mp hh with rfl | hh'
      · exact ⟨p, by simp, hseq⟩
      · obtain ⟨p', hp', hc⟩ := h3 h hh'
        exact ⟨p', by simp [hp'], hc⟩

lemma collectResults_ok {q : List ℚ} (cats : List Catalog)
    (hdim : ∀ c ∈ cats, ∀ p ∈ c.pages, p.embedding.length = q.length) :
    ∃ base, collectResults q cats = .ok base ∧ base.length = totalPages cats ∧
      ∀ h ∈ base, ∃ c ∈ cats, ∃ p ∈ c.pages,
        cosine_similarity q p.embedding = .ok h.similarity := by
  induction cats with
  | nil => exact ⟨[], rfl, rfl, by simp⟩
  | cons c cs ih =>
    obtain ⟨hs, h1, h2, h3⟩ := scorePages_ok c.name c.source_file c.pages (hdim c (by simp))
    obtain ⟨base, g1, g2, g3⟩ := ih (fun c' hc' => hdim c' (by simp [hc']))
    refine ⟨hs ++ base, ?_, ?_, ?_⟩
    · simp only [collectResults, h1, g1]
    · simp [h2, g2, totalPages]
    · intro h hh
      rcases List.mem_append.mp hh with hh' | hh'
      · obtain ⟨p, hp, hc⟩ := h3 h hh'
        exact ⟨c, by simp, p, hp, hc⟩
      · obtain ⟨c', hc', p, hp, hcos⟩ := g3 h hh'
        exact ⟨c', by simp [hc'], p, hp, hcos⟩

lemma scorePages_error_of_mismatch {q : List ℚ} {name src : String} (ps : List Page)
    (h : ∃ p ∈ ps, p.embedding.length ≠ q.length) :
    scorePages q name src ps = .error (.valueError "shapes not aligned") := by
  induction ps with
  | nil => simp at h
  | cons p ps ih =>
    by_cases hp : p.embedding.length = q.length
    · obtain ⟨s, hseq⟩ := cosine_ok_of_len hp
      have htail : ∃ p' ∈ ps, p'.embedding.length ≠ q.length := by
        obtain ⟨p', hp', hne⟩ := h
        rcases List.mem_cons.mp hp' with rfl | h'
        · exact absurd hp hne
        · exact ⟨p', h', hne⟩
      simp only [scorePages, hseq, ih htail]
    · have hcos : cosine_similarity q p.embedding = .error (.valueError "shapes not aligned") := by
        unfold cosine_similarity
        rw [if_pos (by omega)]
      simp only [scorePages, hcos]

lemma collectResults_error_of_mismatch {q : List ℚ} (cats : List Catalog)
    (h : ∃ c ∈ cats, ∃ p ∈ c.pages, p.embedding.length ≠ q.length) :
    collectResults q cats = .error (.valueError "shapes not aligned") := by
  induction cats with
  | nil => simp at h
  | cons c cs ih =>
    by_cases hc : ∃ p ∈ c.pages, p.embedding.length ≠ q.length
    · simp only [collectResults, scorePages_error_of_mismatch c.pages hc]
    · have htail : ∃ c' ∈ cs, ∃ p ∈ c'.pages, p.embedding.length ≠ q.length := by
        obtain ⟨c', hc', p, hp, hne⟩ := h
        rcases List.mem_cons.mp hc' with rfl | h'
        · exact absurd ⟨p, hp, hne⟩ hc
        · exact ⟨c', h', p, hp, hne⟩
      push_neg at hc
      obtain ⟨hs, h1, _, _⟩ := scorePages_ok (q := q) c.name c.source_file c.pages hc
      simp only [collectResults, h1, ih htail]

lemma rank_eq_of_ok {cats : List Catalog} {q : List ℚ} {base : List SearchHit}
    (k : Int) (h : collectResults q cats = .ok base) :
    rank cats q k = .ok (pyTake k (sortDesc base)) := by
  simp only [rank, h]

lemma length_pyTake_of_nonneg {k : Int} (hk : 0 ≤ k) (l : List SearchHit) :
    (pyTake k l).length = min k.toNat l.length := by
  simp [pyTake, hk]

/-! ## Ingestion lemmas -/

lemma foldl_ingest_step (outDir : String) (docs : List SourceDoc) :
    ∀ acc : List Catalog,
      docs.foldl
        (fun acc doc =>
          match buildCatalog outDir doc with
          | .error _ => acc
          | .ok c => appendCatalog acc c) acc
        = acc ++ docs.filterMap (fun d => (buildCatalog outDir d).toOption) := by
  induction docs with
  | nil => intro acc; simp
  | cons d ds ih =>
    intro acc
    simp only [List.foldl_cons, List.filterMap_cons]
    cases hb : buildCatalog outDir d with
    | error e => simp [hb, Except.toOption, ih]
    | ok c =>
      simp only [hb, Except.toOption]
      rw [ih (appendCatalog acc c)]
      simp [appendCatalog, Except.toOption]

lemma ingest_eq_filterMap (outDir : String) (docs : List SourceDoc) :
    ingest outDir docs =
      docs.filterMap (fun d => (buildCatalog outDir d).toOption) := by
  simpa using foldl_ingest_step outDir docs []

lemma processPages_numbering {dir : String} (es : List (Except PyErr (List ℚ))) :
    ∀ (n : Nat) (ps : List Page), processPages dir n es = .ok ps →
      ∀ i (h : i < ps.length), (ps.get ⟨i, h⟩).page_number = n + i := by
  induction es with
  | nil =>
    intro n ps hps i h
    simp only [processPages] at hps
    obtain rfl : ([] : List Page) = ps := Except.ok.inj hps
    simp at h
  | cons e es ih =>
    intro n ps hps i h
    cases e with
    | error err => simp [processPages] at hps
    | ok emb =>
      simp only [processPages] at hps
      cases hrec : processPages dir (n + 1) es with
      | error err => rw [hrec] at hps; simp at hps
      | ok tail =>
        rw [hrec] at hps
        obtain rfl := Except.ok.inj hps
        cases i with
        | zero => simp
        | succ j =>
          have hj : j < tail.length := by simpa using h
          have hh := ih (n + 1) tail hrec j hj
          show (tail.get ⟨j, hj⟩).page_number = n + (j + 1)
          rw [hh]
          omega

lemma buildCatalog_ok {outDir : String} {d : SourceDoc} {c : Catalog}
    (h : buildCatalog outDir d = .ok c) :
    ∃ es ps, d.converted = .ok es ∧
      processPages (catalogDirOf outDir d.pdf_name) 1 es = .ok ps ∧
      c = { name := catalogNameOf d.pdf_name, source_file := d.pdf_name,
            pages := ps } := by
  cases hc : d.converted with
  | error e =>
    simp only [buildCatalog, hc] at h
    exact Except.noConfusion h
  | ok es =>
    simp only [buildCatalog, hc] at h
    cases hp : processPages (catalogDirOf outDir d.pdf_name) 1 es with
    | error e =>
      rw [hp] at h
      exact Except.noConfusion h
    | ok ps =>
      rw [hp] at h
      exact ⟨es, ps, rfl, hp, (Except.ok.inj h).symm⟩

/-! ## Concrete databases and documents used in counterexamples and witnesses -/

/-- A catalog named `"b"`, listed first in the database, one page whose
embedding is orthogonal to the query `[1, 0]`. -/
def cexCatB : Catalog :=
  { name := "b", source_file := "b.pdf",
    pages := [{ page_number := 1, image_path := "pb1", embedding := [0, 1] }] }

/-- A catalog named `"a"`, listed second in the database, one page whose
embedding is orthogonal to the query `[1, 0]`. -/
def cexCatA : Catalog :=
  { name := "a", source_file := "a.pdf",
    pages := [{ page_number := 1, image_path := "pa1", embedding := [0, 1] }] }

/-- The hit `rank` produces for the page of `cexCatB`. -/
def cexHitB : SearchHit :=
  { catalog := "b", page_number := 1, image_path := "pb1",
    similarity := .val 0 1, source_file := "b.pdf" }

/-- The hit `rank` produces for the page of `cexCatA`. -/
def cexHitA : SearchHit :=
  { catalog := "a", page_number := 1, image_path := "pa1",
    similarity := .val 0 1, source_file := "a.pdf" }

/-- A catalog whose first page has the all-zero (degenerate) embedding and
whose second page matches the query `[1, 0]` exactly. -/
def cexCatNan : Catalog :=
  { name := "c", source_file := "c.pdf",
    pages := [{ page_number := 1, image_path := "p1", embedding := [0, 0] },
              { page_number := 2, image_path := "p2", embedding := [1, 0] }] }

/-- The NaN-scored hit for the degenerate page of `cexCatNan`. -/
def cexHitNan : SearchHit :=
  { catalog := "c", page_number := 1, image_path := "p1",
    similarity := .nan, source_file := "c.pdf" }

/-- The score-one hit for the second page of `cexCatNan`. -/
def cexHitOne : SearchHit :=
  { catalog := "c", page_number := 2, image_path := "p2",
    similarity := .val 1 1, source_file := "c.pdf" }

/-- A catalog holding a two-dimensional page vector, queried below with a
three-dimensional query. -/
def cexCatDim : Catalog :=
  { name := "d", source_file := "d.pdf",
    pages := [{ page_number := 1, image_path := "p1", embedding := [1, 2] }] }

/-- First catalog record named `"dup"`. -/
def cexCatDup1 : Catalog :=
  { name := "dup", source_file := "x-dup.pdf", pages := [] }

/-- Second catalog record with the same name `"dup"` and different pages. -/
def cexCatDup2 : Catalog :=
  { name := "dup", source_file := "y-dup.pdf",
    pages := [{ page_number := 1, image_path := "q1", embedding := [1] }] }

/-- A parsed artifact with no `version`, `model` or `created` fields. -/
def cexArtifactNoMeta : Artifact :=
  { version := none, model := none, created := none, catalogs := some [cexCatB] }

/-- A source document that converts to two pages, both embedded fine. -/
def doc0 : SourceDoc :=
  { pdf_name := "x-cat.pdf", converted := .ok [.ok [1], .ok [0]] }

/-- The catalog record `ingest` builds from `doc0`. -/
def cat0 : Catalog :=
  { name := "cat", source_file := "x-cat.pdf",
    pages := [{ page_number := 1, image_path := "out/x-cat/page_001.jpg",
                embedding := [1] },
              { page_number := 2, image_path := "out/x-cat/page_002.jpg",
                embedding := [0] }] }

/-- A source document whose PDF conversion raises. -/
def docBad : SourceDoc :=
  { pdf_name := "bad.pdf", converted := .error (.runtimeError "pdf corrupt") }

/-- Another healthy source document, processed after the failing one. -/
def docGood2 : SourceDoc :=
  { pdf_name := "z.pdf", converted := .ok [.ok [2]] }

/-! ## Claims -/

/-- **C1, counterexample.**  The claim says that matches with exactly equal
scores are ordered ascending by `(catalog name, page_number)`.  On the
database `[cexCatB, cexCatA]` (catalog `"b"` stored before catalog `"a"`)
and query `[1, 0]`, both pages score exactly `0`, yet `rank` returns the hit
of catalog `"b"` before the hit of catalog `"a"`, although `"a" < "b"`: the
stable sort of line 92 leaves ties in database order, not in name order. -/
theorem rank_tiebreak_is_database_order_cex :
    rank [cexCatB, cexCatA] [1, 0] 5 = .ok [cexHitB, cexHitA] ∧
    cexHitB.similarity = cexHitA.similarity ∧
    cexHitA.catalog.data < cexHitB.catalog.data ∧
    cexHitA.catalog ≠ cexHitB.catalog := by
  refine ⟨?_, by norm_num [cexHitA, cexHitB], by decide, by decide⟩
  norm_num [rank, collectResults, scorePages, cosine_similarity, normSq, dot,
    sortDesc, insertDesc, Score.lt, pyTake, cexCatB, cexCatA, cexHitB, cexHitA]

/-- **C1, amended.**  For every database whose page vectors match the query's
dimension and have nonzero norm (and a nonzero-norm query), `rank` succeeds
and returns the top-k prefix of a sequence that is sorted descending by
score, with equal scores kept in database order (catalog position, then page
position) — the order in which `collectResults` enumerates them.  Determinism
holds because `rank` is a pure function of the database and query. -/
theorem rank_sorted_stable (cats : List Catalog) (q : List ℚ) (k : Int)
    (hq : normSq q ≠ 0)
    (hdim : ∀ c ∈ cats, ∀ p ∈ c.pages, p.embedding.length = q.length)
    (hnz : ∀ c ∈ cats, ∀ p ∈ c.pages, normSq p.embedding ≠ 0) :
    ∃ base, collectResults q cats = .ok base ∧
      rank cats q k = .ok (pyTake k (sortDesc base)) ∧
      (sortDesc base).Pairwise
        (fun a b => Score.lt a.similarity b.similarity = false) ∧
      ∀ s : Score, (sortDesc base).filter (fun m => m.similarity == s) =
        base.filter (fun m => m.similarity == s) := by
  obtain ⟨base, h1, _, h3⟩ := collectResults_ok cats hdim
  have hfin : ∀ h ∈ base, ScoreFinite h.similarity := by
    intro h hh
    obtain ⟨c, hc, p, hp, hcos⟩ := h3 h hh
    obtain ⟨hco, hpos⟩ := cosine_val_of_nonzero (hdim c hc p hp) hq (hnz c hc p hp)
    rw [hco] at hcos
    exact ⟨_, _, (Except.ok.inj hcos).symm, hpos⟩
  exact ⟨base, h1, rank_eq_of_ok k h1, pairwise_sortDesc hfin,
    fun s => filter_sortDesc base s⟩

/-- **C1, witness** for the amended theorem, on the two-catalog database of
the counterexample. -/
theorem rank_sorted_stable_witness :
    normSq ([1, 0] : List ℚ) ≠ 0 ∧
    (∀ c ∈ [cexCatB, cexCatA], ∀ p ∈ c.pages,
      p.embedding.length = ([1, 0] : List ℚ).length) ∧
    (∀ c ∈ [cexCatB, cexCatA], ∀ p ∈ c.pages, normSq p.embedding ≠ 0) ∧
    (∃ base, collectResults [1, 0] [cexCatB, cexCatA] = .ok base ∧
      rank [cexCatB, cexCatA] [1, 0] 5 = .ok (pyTake 5 (sortDesc base)) ∧
      (sortDesc base).Pairwise
        (fun a b => Score.lt a.similarity b.similarity = false) ∧
      ∀ s : Score, (sortDesc base).filter (fun m => m.similarity == s) =
        base.filter (fun m => m.similarity == s)) :=
  ⟨by norm_num [normSq, dot],
   by norm_num [List.forall_mem_cons, cexCatB, cexCatA],
   by norm_num [List.forall_mem_cons, cexCatB, cexCatA, normSq, dot],
   rank_sorted_stable [cexCatB, cexCatA] [1, 0] 5 (by norm_num [normSq, dot])
     (by norm_num [List.forall_mem_cons, cexCatB, cexCatA])
     (by norm_num [List.forall_mem_cons, cexCatB, cexCatA, normSq, dot])⟩

/-- **C2, counterexample.**  The claim says a zero-norm vector scores
`-infinity`, that the computation never divides by zero, and that a zero-norm
vector is never ranked above a finite-scored one.  In the code the
denominator `‖a‖ * ‖b‖` is exactly `0` for the zero vector, the division
`0.0 / 0.0` is performed and yields NaN (not `-infinity`), and on
`cexCatNan` the NaN-scored page is returned *above* the page with finite
score `1`. -/
theorem zero_norm_score_is_nan_cex :
    normSq ([0, 0] : List ℚ) * normSq ([1, 0] : List ℚ) = 0 ∧
    cosine_similarity [1, 0] [0, 0] = .ok .nan ∧
    Score.nan ≠ Score.ninf ∧
    rank [cexCatNan] [1, 0] 5 = .ok [cexHitNan, cexHitOne] ∧
    cexHitOne.similarity = .val 1 1 := by
  refine ⟨by norm_num [normSq, dot],
    by norm_num [cosine_similarity, normSq, dot], by decide, ?_,
    by norm_num [cexHitOne]⟩
  norm_num [rank, collectResults, scorePages, cosine_similarity, normSq, dot,
    sortDesc, insertDesc, Score.lt, pyTake, cexCatNan, cexHitNan, cexHitOne]

/-- **C2, amended.**  When the two vectors have equal length and either has
zero norm, the code performs the division with a zero denominator and the
score is IEEE NaN (an `ok` result, not an error and not `-infinity`);
NaN-scored entries can then be sorted above finite-scored ones. -/
theorem zero_norm_yields_nan (a b : List ℚ) (hlen : a.length = b.length)
    (h : normSq a = 0 ∨ normSq b = 0) :
    cosine_similarity a b = .ok .nan := by
  unfold cosine_similarity
  rw [if_neg (by omega), if_pos (by rcases h with h | h <;> simp [h])]

/-- **C2, witness** for the amended theorem at the zero vector. -/
theorem zero_norm_yields_nan_witness :
    ([1, 0] : List ℚ).length = ([0, 0] : List ℚ).length ∧
    (normSq ([1, 0] : List ℚ) = 0 ∨ normSq ([0, 0] : List ℚ) = 0) ∧
    cosine_similarity [1, 0] [0, 0] = .ok .nan :=
  ⟨rfl, Or.inr (by norm_num [normSq, dot]),
   zero_norm_yields_nan [1, 0] [0, 0] rfl (Or.inr (by norm_num [normSq, dot]))⟩

/-- **C3, counterexample.**  The claim says appending a catalog whose name
already exists fails with `DuplicateCatalogError` (or, with replace
semantics, leaves exactly one catalog of that name).  The code's append
(line 120) is an unconditional list append with no name check and no replace
flag: after appending `cexCatDup2` to a database already holding
`cexCatDup1` of the same name, the database holds *two* catalogs named
`"dup"` and no error occurs (the operation cannot fail at all). -/
theorem append_catalog_duplicate_cex :
    cexCatDup1.name = cexCatDup2.name ∧
    appendCatalog [cexCatDup1] cexCatDup2 = [cexCatDup1, cexCatDup2] ∧
    ((appendCatalog [cexCatDup1] cexCatDup2).filter
        (fun c => c.name == "dup")).length = 2 := by
  refine ⟨rfl, rfl, ?_⟩
  norm_num [appendCatalog, cexCatDup1, cexCatDup2]

/-- **C3, amended.**  `append_catalog` appends unconditionally: appending a
catalog increases the number of same-named catalog records by one, so
duplicate names accumulate; there is no `DuplicateCatalogError` and no
replace flag in the code. -/
theorem append_catalog_accumulates_duplicates (db : List Catalog) (c : Catalog) :
    ((appendCatalog db c).filter (fun x => x.name == c.name)).length =
      (db.filter (fun x => x.name == c.name)).length + 1 := by
  simp [appendCatalog, List.filter_append]

/-- **C4, counterexample.**  The claim says `save` writes the database as one
atomic unit (write-to-temp-then-rename or equivalent) so an interruption
never leaves a half-written artifact at the destination.  The code
(`generate-visual-embeddings.py` lines 124-126) opens the destination itself
for writing and dumps into it: the trace contains no rename, and after the
first operation alone (the in-place truncating open) the destination holds
`""` — neither the old contents `"OLD"` nor the new contents `"NEW"`. -/
theorem save_not_atomic_cex :
    (saveTrace "db.json" "NEW").filter (fun op => op.isRename) = [] ∧
    runOps (fun q => if q = "db.json" then some "OLD" else none)
        ((saveTrace "db.json" "NEW").take 1) "db.json" = some "" ∧
    ("" : String) ≠ "OLD" ∧ ("" : String) ≠ "NEW" ∧
    runOps (fun q => if q = "db.json" then some "OLD" else none)
        (saveTrace "db.json" "NEW") "db.json" = some "NEW" := by
  exact ⟨rfl, rfl, by decide, by decide, rfl⟩

/-- **C4, amended.**  `save` writes directly into the destination path with
no temporary file and no rename: a completed run leaves the serialized data
at the destination, but the intermediate state after the truncating open is
an empty file there, so an interruption mid-write leaves a half-written
artifact. -/
theorem save_writes_in_place (dest data : String) (fs : String → Option String) :
    (saveTrace dest data).filter (fun op => op.isRename) = [] ∧
    runOps fs ((saveTrace dest data).take 1) dest = some "" ∧
    runOps fs (saveTrace dest data) dest = some data := by
  refine ⟨rfl, ?_, ?_⟩
  · simp [saveTrace, runOps, runOp]
  · simp [saveTrace, runOps, runOp]

/-- **C5, counterexample.**  The claim says a query vector of the wrong
dimension makes `rank` fail with `DimensionMismatchError`.  On a database of
two-dimensional vectors and the three-dimensional query `[1, 2, 3]`, `rank`
fails with the generic `ValueError` that `np.dot` raises; no
`DimensionMismatchError` type exists in the code. -/
theorem dimension_mismatch_generic_error_cex :
    rank [cexCatDim] [1, 2, 3] 5 = .error (.valueError "shapes not aligned") ∧
    PyErr.valueError "shapes not aligned" ≠ PyErr.dimensionMismatchError := by
  refine ⟨?_, by decide⟩
  norm_num [rank, collectResults, scorePages, cosine_similarity, cexCatDim]

/-- **C5, amended.**  When some stored page vector's length differs from the
query's, `rank` fails — the error is surfaced to the caller as an error
result, not silently ignored — but the error is the generic `ValueError`
from the dot product, not a distinct `DimensionMismatchError`. -/
theorem rank_mismatch_value_error (cats : List Catalog) (q : List ℚ) (k : Int)
    (h : ∃ c ∈ cats, ∃ p ∈ c.pages, p.embedding.length ≠ q.length) :
    rank cats q k = .error (.valueError "shapes not aligned") ∧
    ∀ msg, PyErr.valueError msg ≠ PyErr.dimensionMismatchError := by
  refine ⟨?_, fun msg => by simp⟩
  simp [rank, collectResults_error_of_mismatch cats h]

/-- **C5, witness** for the amended theorem on the two-dimensional database
and three-dimensional query. -/
theorem rank_mismatch_value_error_witness :
    (∃ c ∈ [cexCatDim], ∃ p ∈ c.pages,
      p.embedding.length ≠ ([1, 2, 3] : List ℚ).length) ∧
    (rank [cexCatDim] [1, 2, 3] 5 = .error (.valueError "shapes not aligned") ∧
      ∀ msg, PyErr.valueError msg ≠ PyErr.dimensionMismatchError) :=
  ⟨⟨cexCatDim, by simp, by norm_num [cexCatDim]⟩,
   rank_mismatch_value_error [cexCatDim] [1, 2, 3] 5
     ⟨cexCatDim, by simp, by norm_num [cexCatDim]⟩⟩

/-- **C6, counterexample.**  The claim says loading fails with `SchemaError`
when the top-level `version`, `model` or `catalogs` fields are missing or
malformed, or when vector dimensions are inconsistent.  An artifact with *no*
`version` and *no* `model` field (and a valid `catalogs` list) is accepted:
the search runs to success, because the code never reads those fields and
performs no dimension check at load time. -/
theorem load_missing_version_model_cex :
    cexArtifactNoMeta.version = none ∧ cexArtifactNoMeta.model = none ∧
    visualSearchMain true cexArtifactNoMeta [1, 0] 5 = .success 1 [cexHitB] := by
  refine ⟨rfl, rfl, ?_⟩
  norm_num [visualSearchMain, getCatalogs, collectResults, scorePages,
    cosine_similarity, normSq, dot, sortDesc, insertDesc, Score.lt, pyTake,
    cexArtifactNoMeta, cexCatB, cexHitB]

/-- **C6, amended.**  The search reads only the `catalogs` field of the
parsed artifact: a missing `catalogs` key fails with the generic `KeyError`
(surfaced as an error outcome, distinct from the missing-file outcome), while
the `version`, `model` and `created` fields are never consulted — changing or
omitting them cannot affect the outcome — and no dimension-consistency check
happens at load time. -/
theorem search_reads_only_catalogs :
    (∀ (v m c : Option String) (q : List ℚ) (k : Int),
      visualSearchMain true ⟨v, m, c, none⟩ q k =
        .error (.keyError "catalogs")) ∧
    (∀ (v v' m m' c c' : Option String) (cats : Option (List Catalog))
        (q : List ℚ) (k : Int),
      visualSearchMain true ⟨v, m, c, cats⟩ q k =
        visualSearchMain true ⟨v', m', c', cats⟩ q k) ∧
    (∀ e, SearchOutcome.error e ≠ SearchOutcome.notFoundError) := by
  refine ⟨fun v m c q k => by simp [visualSearchMain, getCatalogs],
    fun v v' m m' c c' cats q k => rfl, fun e => by simp⟩

/-- **C7 (confirmed).**  When the database artifact does not exist, the run
takes the dedicated missing-file branch (lines 56-58) and produces the
`notFoundError` outcome, which is distinct from every generic error outcome
(the corrupt-file path) and from every success outcome, so the caller can
emit the "build the index first" message the branch carries. -/
theorem missing_database_distinct_outcome :
    (∀ (a : Artifact) (q : List ℚ) (k : Int),
      visualSearchMain false a q k = .notFoundError) ∧
    (∀ e, SearchOutcome.notFoundError ≠ SearchOutcome.error e) ∧
    (∀ n rs, SearchOutcome.notFoundError ≠ SearchOutcome.success n rs) := by
  refine ⟨fun a q k => by simp [visualSearchMain], fun e => by simp,
    fun n rs => by simp⟩

/-- **C8 (confirmed).**  For every database whose page vectors match the
query's dimension and every positive `top_k`, `rank` succeeds and the result
length is `min top_k (total pages)`; in particular a `top_k` beyond the page
count returns everything without error, and the empty database yields the
empty sequence, not an error. -/
theorem rank_length_min_topk_pages (cats : List Catalog) (q : List ℚ) (k : Int)
    (hk : 0 < k)
    (hdim : ∀ c ∈ cats, ∀ p ∈ c.pages, p.embedding.length = q.length) :
    (∃ rs, rank cats q k = .ok rs ∧
      rs.length = min k.toNat (totalPages cats)) ∧
    rank [] q k = .ok [] := by
  obtain ⟨base, h1, h2, _⟩ := collectResults_ok cats hdim
  refine ⟨⟨pyTake k (sortDesc base), rank_eq_of_ok k h1, ?_⟩, ?_⟩
  · rw [length_pyTake_of_nonneg hk.le, length_sortDesc, h2]
  · simp [rank, collectResults, sortDesc, pyTake, hk.le]

/-- **C8, witness** on the two-catalog database: `top_k = 5` exceeds the two
stored pages and both are returned. -/
theorem rank_length_min_topk_pages_witness :
    (0 : Int) < 5 ∧
    (∀ c ∈ [cexCatB, cexCatA], ∀ p ∈ c.pages,
      p.embedding.length = ([1, 0] : List ℚ).length) ∧
    ((∃ rs, rank [cexCatB, cexCatA] [1, 0] 5 = .ok rs ∧
        rs.length = min (Int.toNat 5) (totalPages [cexCatB, cexCatA])) ∧
      rank [] [1, 0] 5 = .ok []) :=
  ⟨by decide, by norm_num [List.forall_mem_cons, cexCatB, cexCatA],
   rank_length_min_topk_pages [cexCatB, cexCatA] [1, 0] 5 (by decide)
     (by norm_num [List.forall_mem_cons, cexCatB, cexCatA])⟩

/-- **C9 (confirmed).**  A document whose rasterization or embedding raises
contributes nothing to the database and the run continues over the remaining
documents: ingesting `pre ++ failing :: post` produces exactly the database
of ingesting `pre ++ post`. -/
theorem ingest_skips_failing_document (outDir : String)
    (pre post : List SourceDoc) (d : SourceDoc) (e : PyErr)
    (h : buildCatalog outDir d = .error e) :
    ingest outDir (pre ++ d :: post) = ingest outDir (pre ++ post) := by
  rw [ingest_eq_filterMap, ingest_eq_filterMap]
  simp [List.filterMap_append, List.filterMap_cons, h, Except.toOption]

/-- **C9, witness**: a corrupt PDF between two healthy ones is skipped and
the rest of the run is unaffected. -/
theorem ingest_skips_failing_document_witness :
    buildCatalog "out" docBad = .error (.runtimeError "pdf corrupt") ∧
    ingest "out" ([doc0] ++ docBad :: [docGood2]) =
      ingest "out" ([doc0] ++ [docGood2]) :=
  ⟨rfl, ingest_skips_failing_document "out" [doc0] [docGood2] docBad
    (.runtimeError "pdf corrupt") rfl⟩

/-- **C10 (confirmed).**  Every catalog record the ingestion loop produces
has its pages numbered consecutively from 1 in storage order: the page stored
at (zero-based) position `i` has `page_number` `i + 1` — `enumerate(pages, 1)`
numbers pages from one, and pages are appended in that order. -/
theorem ingested_pages_numbered_consecutively (outDir : String)
    (docs : List SourceDoc) (c : Catalog) (hc : c ∈ ingest outDir docs)
    (i : Nat) (h : i < c.pages.length) :
    (c.pages.get ⟨i, h⟩).page_number = i + 1 := by
  rw [ingest_eq_filterMap] at hc
  obtain ⟨d, hd, hbd⟩ := List.mem_filterMap.mp hc
  have hok : buildCatalog outDir d = .ok c := by
    cases hb : buildCatalog outDir d with
    | error e => rw [hb] at hbd; simp [Except.toOption] at hbd
    | ok c' =>
      rw [hb] at hbd
      simp [Except.toOption] at hbd
      rw [hbd]
  obtain ⟨es, ps, hconv, hpp, rfl⟩ := buildCatalog_ok hok
  have hlen : i < ps.length := h
  have hh := processPages_numbering es 1 ps hpp i hlen
  show (ps.get ⟨i, hlen⟩).page_number = i + 1
  rw [hh]
  omega

/-- **C10, witness** on a two-page document: the page at position 1 carries
`page_number` 2. -/
theorem ingested_pages_numbered_consecutively_witness :
    cat0 ∈ ingest "out" [doc0] ∧
    cat0.pages.map Page.page_number = [1, 2] ∧
    1 < cat0.pages.length ∧
    (cat0.pages.get ⟨1, by norm_num [cat0]⟩).page_number = 1 + 1 := by
  have hc : cat0 ∈ ingest "out" [doc0] := by
    rw [show ingest "out" [doc0] = [cat0] from rfl]
    exact List.mem_singleton_self _
  exact ⟨hc, rfl, by norm_num [cat0],
    ingested_pages_numbered_consecutively "out" [doc0] cat0 hc 1
      (by norm_num [cat0])⟩
